import Mathlib

/-!
Shallow embedding of the TCP port-forwarding core of the repository
(`src/fwrd.py`): address parsing, port allocation, IP admission control,
the password challenge, and the bidirectional relay loop, together with
theorems settling the specification claims about them.
-/

namespace Luka

/-! ## Python string and integer primitives used by `fwrd.py` -/

/-- ASCII whitespace characters recognised by Python `str.strip()` and by
`int()` argument stripping.  (CPython also strips some further Unicode
whitespace; every input considered here is ASCII, where this set is exact.) -/
def isPyWS (c : Char) : Bool :=
  c = ' ' || c = '\t' || c = '\n' || c = '\x0d' || c = '\x0b' || c = '\x0c'

/-- Drop leading and trailing Python whitespace from a character list. -/
def stripWS (l : List Char) : List Char :=
  ((l.dropWhile isPyWS).reverse.dropWhile isPyWS).reverse

/-- Python `str.strip()` on strings. -/
def pyStrip (s : String) : String :=
  String.mk (stripWS s.toList)

/-- Value of a digit run after its first digit: CPython `int()` accepts a
single underscore between two digits, and nothing else besides digits. -/
def pyDigitsAux : Nat → List Char → Option Nat
  | acc, [] => some acc
  | acc, c :: rest =>
    if c.isDigit then pyDigitsAux (10 * acc + (c.toNat - 48)) rest
    else if c = '_' then
      match rest with
      | d :: rest2 =>
        if d.isDigit then pyDigitsAux (10 * acc + (d.toNat - 48)) rest2 else none
      | [] => none
    else none

/-- Digit run of CPython `int()`: nonempty, starts with a digit, single
underscores allowed only between digits. -/
def pyDigits : List Char → Option Nat
  | [] => none
  | c :: rest => if c.isDigit then pyDigitsAux (c.toNat - 48) rest else none

/-- CPython `int(s)` on an ASCII string: strip whitespace, optional sign,
then a digit run.  Returns `none` where CPython raises `ValueError`. -/
def pyInt (l : List Char) : Option Int :=
  match stripWS l with
  | [] => none
  | c :: rest =>
    if c = '+' then (pyDigits rest).map Int.ofNat
    else if c = '-' then (pyDigits rest).map (fun n => -(Int.ofNat n))
    else (pyDigits (c :: rest)).map Int.ofNat

/-- Python `s.rsplit(sep, 1)` specialised to `':'`: split at the LAST colon.
`none` when the list has no colon (Python `':' in address` false). -/
def rsplitColon : List Char → Option (List Char × List Char)
  | [] => none
  | c :: rest =>
    match rsplitColon rest with
    | some (a, b) => some (c :: a, b)
    | none => if c = ':' then some ([], rest) else none

/-! ## `parse_address` (src/fwrd.py lines 10-33)

`None` models every `sys.exit(1)` path.  The Python guard
`if address and ':' in address` is equivalent to `rsplitColon` succeeding,
since the empty string contains no colon. -/

/-- `parse_address(address, default_host)` from `src/fwrd.py`. -/
def parse_address (address : String) (default_host : Option String) :
    Option (String × Int) :=
  match rsplitColon address.toList with
  | some (hostC, portC) =>
    (pyInt portC).map (fun p => (String.mk hostC, p))
  | none =>
    if address = "" then none
    else
      match pyInt address.toList with
      | some p =>
        match default_host with
        | some h => some (h, p)
        | none => none
      | none => none

/-! ## `find_available_port` (src/fwrd.py lines 46-67)

The bind-and-listen probe on `(host, candidate)` is modelled by an oracle
`probe : Nat → BindResult` giving the outcome at each candidate port.  The
Python loop advances on `EADDRINUSE` and on every other `OSError` alike;
both failure kinds are kept so the embedding mirrors the two branches. -/

/-- Outcome of one `sock.bind(...); sock.listen(5)` probe. -/
inductive BindResult where
  | success
  | addrInUse
  | otherError
deriving DecidableEq, Repr

/-- `find_available_port(host, port, log_enabled)` from `src/fwrd.py`:
scan upward from `port` while the candidate is at most 65535, returning the
first candidate where the probe binds, else `None`.  Logging is pure
output and is not modelled. -/
def find_available_port (probe : Nat → BindResult) (port : Nat) : Option Nat :=
  if _h : port ≤ 65535 then
    match probe port with
    | .success => some port
    | .addrInUse => find_available_port probe (port + 1)
    | .otherError => find_available_port probe (port + 1)
  else none
termination_by 65536 - port
decreasing_by
  all_goals omega

/-! ## `check_ip_allowed` (src/fwrd.py lines 69-86)

IPv4 only: a client address is a 32-bit value, a CIDR entry is a network
address plus mask length, and `client_ip_obj in cidr` compares the top
`maskBits` bits.  `ipaddress.ip_address` failing to parse is modelled by
the client address being `none`. -/

/-- One entry of the allow/deny lists: `ipaddress.ip_network` result. -/
structure IPv4Net where
  addr : Nat
  maskBits : Nat
deriving DecidableEq, Repr

/-- Python `client_ip_obj in cidr` for IPv4. -/
def ipInNet (ip : Nat) (net : IPv4Net) : Bool :=
  ip / 2 ^ (32 - net.maskBits) == net.addr / 2 ^ (32 - net.maskBits)

/-- `check_ip_allowed(client_ip, allow_list, deny_list)` from `src/fwrd.py`.
`clientIP = none` is the `ValueError` branch of `ipaddress.ip_address`. -/
def check_ip_allowed (clientIP : Option Nat)
    (allow_list deny_list : List IPv4Net) : Bool :=
  match clientIP with
  | none => false
  | some ip =>
    if deny_list ≠ [] ∧ deny_list.any (fun cidr => ipInNet ip cidr) then false
    else if allow_list ≠ [] then allow_list.any (fun cidr => ipInNet ip cidr)
    else true

/-! ## `handle_client` admission pipeline (src/fwrd.py lines 88-127)

The socket interactions of one `handle_client` call, up to and including
dialing the source, are modelled as an event trace.  The client input to
the password challenge is the result of the single `source.recv(1024)`:
either a decoded string, or `authFail` for the exception paths (read
timeout, connection error, undecodable bytes), which `except Exception`
catches.  Everything after a successful dial (the two relay threads) is
the single `relayPhase` marker; the relay loop itself is modelled
separately below. -/

/-- Result of the one `source.recv(1024)` of the password challenge. -/
inductive AuthRecv where
  | ok (s : String)
  | authFail
deriving DecidableEq, Repr

/-- Observable actions `handle_client` performs on its sockets. -/
inductive HEv where
  | sendClient (msg : String)
  | recvClient
  | closeClient
  | dialSource
  | relayPhase
deriving DecidableEq, Repr

/-- The password challenge of `handle_client` (lines 99-118), taken when
`auth_password` is truthy: events on the client socket, and whether
control proceeds to the relay section. -/
def authChallenge (pw : String) (r : AuthRecv) : List HEv × Bool :=
  match r with
  | .authFail => ([.sendClient "Password: ", .recvClient, .closeClient], false)
  | .ok s =>
    if pyStrip s ≠ pw then
      ([.sendClient "Password: ", .recvClient,
        .sendClient "Authentication failed.\n", .closeClient], false)
    else
      ([.sendClient "Password: ", .recvClient,
        .sendClient "Authentication successful.\n"], true)

/-- Python truthiness of `auth_password` (`None` and `""` are falsy). -/
def pyTruthyStr : Option String → Bool
  | none => false
  | some s => s ≠ ""

/-- `handle_client(...)` from `src/fwrd.py` as an event trace: IP filter,
optional password challenge, dial of the source (`dialOk` is whether
`src_sock.connect(destination)` succeeds), relay phase, and the `finally`
close of the client socket. -/
def handle_client (clientIP : Option Nat) (allow_list deny_list : List IPv4Net)
    (auth_password : Option String) (r : AuthRecv) (dialOk : Bool) : List HEv :=
  if ¬ check_ip_allowed clientIP allow_list deny_list then [.closeClient]
  else
    let auth :=
      match auth_password with
      | some pw => if pw ≠ "" then authChallenge pw r else ([], true)
      | none => ([], true)
    if auth.2 then
      auth.1 ++ [.dialSource] ++ (if dialOk then [.relayPhase] else [])
        ++ [.closeClient]
    else auth.1

/-! ## The relay loop `forward` (src/fwrd.py lines 128-150)

One direction of the relay, as the event trace of one call of the nested
`forward(src, dst, direction)`.  Its input is the finite sequence of
`src.recv(4096)` results the loop obtains: a data chunk (a byte list, the
empty chunk being EOF), or `recvErr` when that `recv` (or the following
`sendall`) raises.  An exhausted input list models the other direction
having set `close_flag` before this iteration, ending the `while` loop.
In every case the `finally` block then runs: set `close_flag`, shut down
the read half of `src`, shut down the write half of `dst`.  The trace
contains `closeSrcSock`/`closeDstSock` constructors so that the absence of
a full `close()` is expressible; `forward` never emits them. -/

/-- One `src.recv(4096)` result inside the relay loop. -/
inductive RecvR where
  | chunk (data : List Nat)
  | recvErr
deriving DecidableEq, Repr

/-- Observable actions of one relay direction. -/
inductive FEv where
  | readChunk (data : List Nat)
  | writeChunk (data : List Nat)
  | sleepFor (seconds : ℚ)
  | setFlag
  | shutdownSrcRead
  | shutdownDstWrite
  | closeSrcSock
  | closeDstSock
deriving DecidableEq, Repr

/-- Python truthiness of `bandwidth` (`None` and `0` are falsy). -/
def pyTruthyInt : Option Int → Bool
  | none => false
  | some n => n ≠ 0

/-- Lines 136-137 of `src/fwrd.py`: `if bandwidth:` (Python truthiness,
so `None` and `0` skip) `time.sleep(len(data) / (bandwidth * 1024))`. -/
def throttle (bandwidth : Option Int) (data : List Nat) : List FEv :=
  match bandwidth with
  | some n =>
    if n ≠ 0 then [.sleepFor ((data.length : ℚ) / ((n : ℚ) * 1024))] else []
  | none => []

/-- The `while not close_flag.is_set()` body of `forward`: read, forward
unmodified, and when `bandwidth` is truthy sleep
`len(data) / (bandwidth * 1024)` seconds. -/
def forwardBody (bandwidth : Option Int) : List RecvR → List FEv
  | [] => []
  | .recvErr :: _ => []
  | .chunk data :: rest =>
    if data.isEmpty then [.readChunk data]
    else
      .readChunk data :: .writeChunk data ::
        (throttle bandwidth data ++ forwardBody bandwidth rest)

/-- Full trace of one `forward(src, dst, direction)` call: loop body, then
the `finally` block (set the shared flag, half-close both sockets). -/
def forward (bandwidth : Option Int) (incoming : List RecvR) : List FEv :=
  forwardBody bandwidth incoming
    ++ [.setFlag, .shutdownSrcRead, .shutdownDstWrite]

/-- The chunks a `forward` trace writes to `dst`, in order. -/
def forwardWrites (bandwidth : Option Int) (incoming : List RecvR) :
    List (List Nat) :=
  (forward bandwidth incoming).filterMap fun e =>
    match e with
    | .writeChunk data => some data
    | _ => none

/-- The sleep durations a `forward` trace performs, in order. -/
def forwardSleeps (bandwidth : Option Int) (incoming : List RecvR) :
    List ℚ :=
  (forward bandwidth incoming).filterMap fun e =>
    match e with
    | .sleepFor d => some d
    | _ => none

/-! ## Structure of `rsplitColon` -/

/-- A list with no split has no colon. -/
lemma rsplitColon_none {l : List Char} (h : rsplitColon l = none) : ':' ∉ l := by
  induction l with
  | nil => simp
  | cons c rest ih =>
    simp only [rsplitColon] at h
    cases hr : rsplitColon rest with
    | some pr => rw [hr] at h; cases h
    | none =>
      rw [hr] at h
      by_cases hc : c = ':'
      · simp [hc] at h
      · simp only [List.mem_cons, not_or]
        exact ⟨fun he => hc he.symm, ih hr⟩

/-- `rsplitColon` splits its input at its LAST colon. -/
lemma rsplitColon_eq {l a b : List Char} (h : rsplitColon l = some (a, b)) :
    l = a ++ ':' :: b ∧ ':' ∉ b := by
  induction l generalizing a b with
  | nil => simp [rsplitColon] at h
  | cons c rest ih =>
    simp only [rsplitColon] at h
    cases hr : rsplitColon rest with
    | some pr =>
      obtain ⟨a2, b2⟩ := pr
      rw [hr] at h
      simp only [Option.some.injEq, Prod.mk.injEq] at h
      obtain ⟨ha, hb⟩ := h
      obtain ⟨he, hn⟩ := ih hr
      subst ha hb he
      exact ⟨rfl, hn⟩
    | none =>
      rw [hr] at h
      by_cases hc : c = ':'
      · subst hc
        simp at h
        obtain ⟨ha, hb⟩ := h
        subst ha hb
        exact ⟨rfl, rsplitColon_none hr⟩
      · simp [hc] at h

/-! ## Claims C3 and C7: address parsing -/

/-- C3 counterexample: `parse_address` performs no range check on the port
and no non-emptiness check on the host.  On the input `":70000"` it
succeeds and returns the endpoint `("", 70000)`, whose port exceeds 65535
and whose host is empty — the claimed `InvalidAddress` outcome does not
occur and the claimed endpoint invariants both fail. -/
theorem parse_address_no_validation :
    parse_address ":70000" none = some ("", 70000) ∧ 65535 < 70000 := by
  exact ⟨by decide, by decide⟩

/-- C3 (amended): `parse_address` fails exactly when the port segment does
not parse as a Python integer (no range restriction), or, for a string
without a colon, when the whole string does not parse as a Python integer
or no default host is supplied. -/
theorem parse_address_failure_iff (a : String) (d : Option String) :
    parse_address a d = none ↔
      ((∃ hc pc, rsplitColon a.toList = some (hc, pc) ∧ pyInt pc = none) ∨
       (rsplitColon a.toList = none ∧ (pyInt a.toList = none ∨ d = none))) := by
  cases hsplit : rsplitColon a.toList with
  | some pr =>
    obtain ⟨hc, pc⟩ := pr
    have hsplit2 : rsplitColon a.data = some (hc, pc) := hsplit
    cases hpc : pyInt pc with
    | none =>
      simp only [parse_address, hsplit, hsplit2, hpc, Option.map_none]
      constructor
      · intro _
        exact Or.inl ⟨hc, pc, rfl, hpc⟩
      · intro _
        rfl
    | some p => simp [parse_address, hsplit, hsplit2, hpc]
  | none =>
    have hsplit2 : rsplitColon a.data = none := hsplit
    by_cases ha : a = ""
    · subst ha
      have hempty : pyInt ([] : List Char) = none := by decide
      simp [parse_address, hsplit, hsplit2, hempty]
    · cases hint : pyInt a.toList with
      | none =>
        have hint2 : pyInt a.data = none := hint
        simp [parse_address, hsplit, hsplit2, ha, hint, hint2]
      | some p =>
        have hint2 : pyInt a.data = some p := hint
        cases d with
        | none => simp [parse_address, hsplit, hsplit2, ha, hint, hint2]
        | some h => simp [parse_address, hsplit, hsplit2, ha, hint, hint2]

/-- C7: resolver round-trip.  When the address contains a colon,
`parse_address` returns exactly the substring left of the LAST colon as
host and the Python-integer value of the right part as port (and that
split reassembles the input); for a bare-port string with a default host
supplied, the resolved host is that default and the port is the parsed
integer. -/
theorem parse_address_roundtrip (s : String) :
    (∀ d hc pc p, rsplitColon s.toList = some (hc, pc) → pyInt pc = some p →
      parse_address s d = some (String.mk hc, p) ∧
        s.toList = hc ++ ':' :: pc ∧ ':' ∉ pc) ∧
    (∀ p h, rsplitColon s.toList = none → pyInt s.toList = some p →
      parse_address s (some h) = some (h, p)) := by
  constructor
  · intro d hc pc p hsplit hint
    refine ⟨?_, rsplitColon_eq hsplit⟩
    have hsplit2 : rsplitColon s.data = some (hc, pc) := hsplit
    simp [parse_address, hsplit2, hint]
  · intro p h hsplit hint
    have hsplit2 : rsplitColon s.data = none := hsplit
    have hint2 : pyInt s.data = some p := hint
    have ha : s ≠ "" := by
      intro he
      subst he
      have hempty : pyInt ([] : List Char) = none := by decide
      rw [hempty] at hint2
      cases hint2
    simp [parse_address, hsplit2, ha, hint2]

/-- Witness for C7 at concrete inputs `"127.0.0.1:8080"` and `"9000"` with
default host `"localhost"`. -/
theorem parse_address_roundtrip_witness :
    parse_address "127.0.0.1:8080" none =
        some (String.mk "127.0.0.1".toList, 8080) ∧
    parse_address "9000" (some "localhost") = some ("localhost", 9000) := by
  constructor
  · exact ((parse_address_roundtrip "127.0.0.1:8080").1 none
      "127.0.0.1".toList "8080".toList 8080 (by decide) (by decide)).1
  · exact (parse_address_roundtrip "9000").2 9000 "localhost"
      (by decide) (by decide)

/-! ## Claims C5 and C9: port allocation -/

/-- A failed probe advances the scan to the next candidate. -/
lemma find_step (probe : Nat → BindResult) (Q : Nat) (hQ : Q ≤ 65535)
    (hfail : probe Q ≠ .success) :
    find_available_port probe Q = find_available_port probe (Q + 1) := by
  conv_lhs => rw [find_available_port]
  rw [dif_pos hQ]
  cases hprobe : probe Q with
  | success => exact absurd hprobe hfail
  | addrInUse => rfl
  | otherError => rfl

/-- The scan returns `none` exactly when no candidate from its start up to
65535 binds. -/
lemma find_none_iff (probe : Nat → BindResult) :
    ∀ n P, 65536 - P ≤ n →
      (find_available_port probe P = none ↔
        ∀ p, P ≤ p → p ≤ 65535 → probe p ≠ .success) := by
  intro n
  induction n with
  | zero =>
    intro P hP
    have hgt : ¬ P ≤ 65535 := by omega
    unfold find_available_port
    rw [dif_neg hgt]
    constructor
    · intro _ p h1 h2
      omega
    · intro _
      rfl
  | succ n ih =>
    intro P hP
    by_cases hle : P ≤ 65535
    · conv_lhs => rw [find_available_port]
      rw [dif_pos hle]
      cases hprobe : probe P with
      | success =>
        simp only [hprobe]
        constructor
        · intro h
          cases h
        · intro hall
          exact absurd hprobe (hall P le_rfl hle)
      | addrInUse =>
        simp only [hprobe]
        rw [ih (P + 1) (by omega)]
        constructor
        · intro hall p h1 h2
          by_cases hp : p = P
          · subst hp
            rw [hprobe]
            intro hcon
            cases hcon
          · exact hall p (by omega) h2
        · intro hall p h1 h2
          exact hall p (by omega) h2
      | otherError =>
        simp only [hprobe]
        rw [ih (P + 1) (by omega)]
        constructor
        · intro hall p h1 h2
          by_cases hp : p = P
          · subst hp
            rw [hprobe]
            intro hcon
            cases hcon
          · exact hall p (by omega) h2
        · intro hall p h1 h2
          exact hall p (by omega) h2
    · unfold find_available_port
      rw [dif_neg hle]
      constructor
      · intro _ p h1 h2
        omega
      · intro _
        rfl

/-- C5: first-free-port.  If every candidate in `P..P+k-1` fails to bind
(in-use or any other error) and `P+k ≤ 65535` binds, the scan returns
`P+k`. -/
theorem find_available_port_first_free (probe : Nat → BindResult) (P k : Nat)
    (hfail : ∀ j, j < k → probe (P + j) ≠ .success)
    (hsucc : probe (P + k) = .success) (hle : P + k ≤ 65535) :
    find_available_port probe P = some (P + k) := by
  induction k generalizing P with
  | zero =>
    have h0 : P ≤ 65535 := by omega
    have hs : probe P = .success := by simpa using hsucc
    conv_lhs => rw [find_available_port]
    rw [dif_pos h0]
    simp only [hs, Nat.add_zero]
  | succ k ih =>
    have h0 : P ≤ 65535 := by omega
    have hstep := find_step probe P h0 (by simpa using hfail 0 (Nat.succ_pos k))
    rw [hstep]
    have hrec : find_available_port probe (P + 1) = some (P + 1 + k) := by
      apply ih
      · intro j hj
        have := hfail (j + 1) (by omega)
        have harith : P + (j + 1) = P + 1 + j := by omega
        rw [harith] at this
        exact this
      · have harith : P + (k + 1) = P + 1 + k := by omega
        rw [harith] at hsucc
        exact hsucc
      · omega
    rw [hrec]
    congr 1
    omega

/-- Witness for C5: ports 8080 and 8081 busy, 8082 free, so the scan
returns 8082. -/
theorem find_available_port_first_free_witness :
    find_available_port
      (fun p => if 8082 ≤ p then .success else .addrInUse) 8080 = some 8082 := by
  have h := find_available_port_first_free
    (fun p => if 8082 ≤ p then .success else .addrInUse) 8080 2
    (by decide) (by decide) (by decide)
  simpa using h

/-- C9: allocator termination.  The scan (a total function in this
embedding) moves from a failed candidate to the next, and returns `none`
exactly when no candidate between its start and 65535 binds --- in
particular when the start already exceeds 65535. -/
theorem find_available_port_exhaustion (probe : Nat → BindResult) (P : Nat) :
    (∀ Q, Q ≤ 65535 → probe Q ≠ .success →
      find_available_port probe Q = find_available_port probe (Q + 1)) ∧
    (find_available_port probe P = none ↔
      ∀ p, P ≤ p → p ≤ 65535 → probe p ≠ .success) := by
  exact ⟨fun Q hQ hf => find_step probe Q hQ hf,
    find_none_iff probe (65536 - P) P le_rfl⟩

/-! ## Claims C4 and C6: IP admission -/

/-- C4: deny precedence.  A peer whose address matches some entry of a
non-empty deny list is rejected, whatever the allow list holds. -/
theorem check_ip_allowed_deny_precedence (ip : Nat)
    (allow_list deny_list : List IPv4Net) (hne : deny_list ≠ [])
    (hmatch : deny_list.any (fun cidr => ipInNet ip cidr) = true) :
    check_ip_allowed (some ip) allow_list deny_list = false := by
  simp only [check_ip_allowed]
  rw [if_pos ⟨hne, hmatch⟩]

/-- Witness for C4: peer 10.1.2.3 with deny list `[10.0.0.0/8]`, and an
allow list that also matches the peer. -/
theorem check_ip_allowed_deny_precedence_witness :
    check_ip_allowed (some 167838211) [⟨167772160, 8⟩] [⟨167772160, 8⟩]
      = false := by
  exact check_ip_allowed_deny_precedence 167838211
    [⟨167772160, 8⟩] [⟨167772160, 8⟩] (by decide) (by decide)

/-- C6: rejection atomicity.  When the IP filter rejects, `handle_client`
closes the client immediately: the whole trace is the single close, so
nothing is written to the client, the source is never dialed, and the
relay phase is never entered. -/
theorem handle_client_rejects_atomically (clientIP : Option Nat)
    (allow_list deny_list : List IPv4Net) (auth_password : Option String)
    (r : AuthRecv) (dialOk : Bool)
    (hrej : check_ip_allowed clientIP allow_list deny_list = false) :
    handle_client clientIP allow_list deny_list auth_password r dialOk =
      [HEv.closeClient] ∧
    (∀ msg, HEv.sendClient msg ∉
      handle_client clientIP allow_list deny_list auth_password r dialOk) ∧
    HEv.dialSource ∉
      handle_client clientIP allow_list deny_list auth_password r dialOk ∧
    HEv.relayPhase ∉
      handle_client clientIP allow_list deny_list auth_password r dialOk := by
  have htr : handle_client clientIP allow_list deny_list auth_password r dialOk
      = [HEv.closeClient] := by
    unfold handle_client
    rw [if_pos (by simp [hrej])]
  refine ⟨htr, ?_, ?_, ?_⟩ <;> rw [htr] <;> simp

/-- Witness for C6: deny list `[10.0.0.0/8]`, peer 10.1.2.3. -/
theorem handle_client_rejects_atomically_witness :
    handle_client (some 167838211) [] [⟨167772160, 8⟩] (some "abc")
      (.ok "abc") true = [HEv.closeClient] := by
  exact (handle_client_rejects_atomically (some 167838211) []
    [⟨167772160, 8⟩] (some "abc") (.ok "abc") true (by decide)).1

/-! ## Claim C2: the password challenge -/

/-- C2 counterexample: the comparison is NOT exact byte comparison.  With
secret `"abc"`, a client whose single read yields `"abc\n"` — bytes that
differ from the secret — is authenticated and relayed, because the code
compares `recv(1024).decode().strip()` to the secret. -/
theorem auth_not_exact_byte_comparison :
    ("abc\n" : String) ≠ "abc" ∧
    handle_client (some 2130706433) [] [] (some "abc") (.ok "abc\n") true =
      [.sendClient "Password: ", .recvClient,
       .sendClient "Authentication successful.\n",
       .dialSource, .relayPhase, .closeClient] := by
  exact ⟨by decide, by decide⟩

/-- C2 (amended): when a non-empty secret is configured and the peer passed
the IP filter, the gate writes the prompt, performs exactly one read of the
client, and compares the decoded, whitespace-stripped read to the secret
by string equality.  It proceeds to dialing/relaying iff the stripped read
equals the secret; on mismatch it writes the failure message and closes;
on a read timeout or error it closes without writing a failure message. -/
theorem auth_challenge_semantics (pw : String) (hpw : pw ≠ "")
    (clientIP : Option Nat) (allow_list deny_list : List IPv4Net)
    (hadm : check_ip_allowed clientIP allow_list deny_list = true)
    (r : AuthRecv) (dialOk : Bool) :
    (handle_client clientIP allow_list deny_list (some pw) r dialOk).take 2 =
      [HEv.sendClient "Password: ", HEv.recvClient] ∧
    (handle_client clientIP allow_list deny_list (some pw) r dialOk).count
      HEv.recvClient = 1 ∧
    (HEv.dialSource ∈
        handle_client clientIP allow_list deny_list (some pw) r dialOk ↔
      ∃ s, r = .ok s ∧ pyStrip s = pw) ∧
    (∀ s, r = .ok s → pyStrip s ≠ pw →
      handle_client clientIP allow_list deny_list (some pw) r dialOk =
        [HEv.sendClient "Password: ", HEv.recvClient,
         HEv.sendClient "Authentication failed.\n", HEv.closeClient]) ∧
    (r = .authFail →
      handle_client clientIP allow_list deny_list (some pw) r dialOk =
        [HEv.sendClient "Password: ", HEv.recvClient, HEv.closeClient]) := by
  cases r with
  | authFail =>
    have htr : handle_client clientIP allow_list deny_list (some pw)
        .authFail dialOk =
        [HEv.sendClient "Password: ", HEv.recvClient, HEv.closeClient] := by
      unfold handle_client
      rw [if_neg (by simp [hadm])]
      simp [hpw, authChallenge]
    rw [htr]
    refine ⟨by decide, by decide, ?_, ?_, ?_⟩
    · simp
    · intro s hs
      cases hs
    · intro _
      rfl
  | ok s =>
    by_cases hs : pyStrip s = pw
    · have htr : handle_client clientIP allow_list deny_list (some pw)
          (.ok s) dialOk =
          [HEv.sendClient "Password: ", HEv.recvClient,
           HEv.sendClient "Authentication successful.\n", HEv.dialSource]
            ++ (if dialOk then [HEv.relayPhase] else []) ++
          [HEv.closeClient] := by
        unfold handle_client
        rw [if_neg (by simp [hadm])]
        simp [hpw, authChallenge, hs]
      rw [htr]
      cases dialOk with
      | true =>
        refine ⟨by decide, by decide, ?_, ?_, ?_⟩
        · constructor
          · intro _
            exact ⟨s, rfl, hs⟩
          · intro _
            decide
        · intro s2 hs2 hne
          cases hs2
          exact absurd hs hne
        · intro hcon
          cases hcon
      | false =>
        refine ⟨by decide, by decide, ?_, ?_, ?_⟩
        · constructor
          · intro _
            exact ⟨s, rfl, hs⟩
          · intro _
            decide
        · intro s2 hs2 hne
          cases hs2
          exact absurd hs hne
        · intro hcon
          cases hcon
    · have htr : handle_client clientIP allow_list deny_list (some pw)
          (.ok s) dialOk =
          [HEv.sendClient "Password: ", HEv.recvClient,
           HEv.sendClient "Authentication failed.\n", HEv.closeClient] := by
        unfold handle_client
        rw [if_neg (by simp [hadm])]
        simp [hpw, authChallenge, hs]
      rw [htr]
      refine ⟨by decide, by decide, ?_, ?_, ?_⟩
      · constructor
        · intro hmem
          simp at hmem
        · rintro ⟨s2, hs2, hstrip⟩
          cases hs2
          exact absurd hstrip hs
      · intro s2 hs2 _
        cases hs2
        rfl
      · intro hcon
        cases hcon

/-- Witness for the amended C2: secret `"abc"`, admitted peer 127.0.0.1,
client sends `" abc "`. -/
theorem auth_challenge_semantics_witness :
    (handle_client (some 2130706433) [] [] (some "abc")
        (.ok " abc ") true).take 2 =
      [HEv.sendClient "Password: ", HEv.recvClient] ∧
    (handle_client (some 2130706433) [] [] (some "abc")
        (.ok " abc ") true).count HEv.recvClient = 1 ∧
    (HEv.dialSource ∈
        handle_client (some 2130706433) [] [] (some "abc")
          (.ok " abc ") true ↔
      ∃ s, AuthRecv.ok " abc " = .ok s ∧ pyStrip s = "abc") ∧
    (∀ s, AuthRecv.ok " abc " = .ok s → pyStrip s ≠ "abc" →
      handle_client (some 2130706433) [] [] (some "abc")
          (.ok " abc ") true =
        [HEv.sendClient "Password: ", HEv.recvClient,
         HEv.sendClient "Authentication failed.\n", HEv.closeClient]) ∧
    (AuthRecv.ok " abc " = .authFail →
      handle_client (some 2130706433) [] [] (some "abc")
          (.ok " abc ") true =
        [HEv.sendClient "Password: ", HEv.recvClient, HEv.closeClient]) := by
  exact auth_challenge_semantics "abc" (by decide) (some 2130706433) [] []
    (by decide) (.ok " abc ") true

/-! ## Claims C1, C8, C10: the relay loop -/

/-- Events of the loop body proper: reads, writes, throttle sleeps. -/
def isDataEv : FEv → Bool
  | .readChunk _ => true
  | .writeChunk _ => true
  | .sleepFor _ => true
  | _ => false

/-- The loop body emits only data events: no flag, shutdown or close. -/
lemma forwardBody_data (bandwidth : Option Int) (incoming : List RecvR) :
    ∀ e ∈ forwardBody bandwidth incoming, isDataEv e = true := by
  induction incoming with
  | nil =>
    intro e he
    cases he
  | cons r rest ih =>
    intro e he
    cases r with
    | recvErr => cases he
    | chunk data =>
      by_cases hd : data.isEmpty
      · simp only [forwardBody, if_pos hd, List.mem_singleton] at he
        subst he
        rfl
      · simp only [forwardBody, if_neg hd, List.mem_cons, List.mem_append] at he
        rcases he with rfl | rfl | hin | hin
        · rfl
        · rfl
        · cases hb : bandwidth with
          | none =>
            rw [hb] at hin
            simp [throttle] at hin
          | some n =>
            rw [hb] at hin
            by_cases hn : n = 0
            · rw [throttle, if_neg (fun hcon => hcon hn)] at hin
              cases hin
            · rw [throttle, if_pos hn] at hin
              simp only [List.mem_singleton] at hin
              subst hin
              rfl
        · exact ih e hin

/-- `forwardWrites` and `forwardSleeps` see only the loop body, since the
`finally` events are neither writes nor sleeps. -/
lemma forwardWrites_body (bandwidth : Option Int) (incoming : List RecvR) :
    forwardWrites bandwidth incoming =
      (forwardBody bandwidth incoming).filterMap
        (fun e => match e with | FEv.writeChunk data => some data | _ => none) := by
  rw [forwardWrites, forward, List.filterMap_append]
  simp

/-- Sleep events of a trace come from the body alone. -/
lemma forwardSleeps_body (bandwidth : Option Int) (incoming : List RecvR) :
    forwardSleeps bandwidth incoming =
      (forwardBody bandwidth incoming).filterMap
        (fun e => match e with | FEv.sleepFor d => some d | _ => none) := by
  rw [forwardSleeps, forward, List.filterMap_append]
  simp

/-- The throttle segment contains no write event. -/
lemma throttle_no_write (bandwidth : Option Int) (data : List Nat) :
    (throttle bandwidth data).filterMap
      (fun e => match e with | FEv.writeChunk d => some d | _ => none) = [] := by
  cases bandwidth with
  | none => rfl
  | some n =>
    by_cases hn : n = 0
    · rw [throttle, if_neg (fun hcon => hcon hn)]
      rfl
    · rw [throttle, if_pos hn]
      rfl

/-- C1: relay fidelity.  For every sequence of chunks the loop reads (an
error-free run), it writes exactly the chunks read before the first empty
read, unmodified and in order — hence also the identical byte stream. -/
theorem forward_relay_fidelity (bandwidth : Option Int)
    (chunks : List (List Nat)) :
    forwardWrites bandwidth (chunks.map RecvR.chunk) =
      chunks.takeWhile (fun data => !data.isEmpty) ∧
    (forwardWrites bandwidth (chunks.map RecvR.chunk)).flatten =
      (chunks.takeWhile (fun data => !data.isEmpty)).flatten := by
  have hmain : ∀ cs : List (List Nat),
      forwardWrites bandwidth (cs.map RecvR.chunk) =
        cs.takeWhile (fun data => !data.isEmpty) := by
    intro cs
    induction cs with
    | nil => rfl
    | cons c rest ih =>
      rw [forwardWrites_body] at ih ⊢
      simp only [List.map_cons, forwardBody]
      by_cases hd : c.isEmpty
      · rw [if_pos hd]
        simp [List.takeWhile, hd]
      · rw [if_neg hd]
        simp only [List.filterMap_cons, List.filterMap_append,
          throttle_no_write, List.nil_append]
        rw [ih]
        simp [List.takeWhile, hd]
  exact ⟨hmain chunks, by rw [hmain chunks]⟩

/-- C8: half-close discipline.  Every `forward` trace ends with the
`finally` block: first the shared cancellation flag is set, then the read
half of the socket the loop reads from and the write half of the socket it
writes to are shut down, in that order; before it come only
read/write/sleep events, and a full close of either socket appears
nowhere in the trace. -/
theorem forward_half_close (bandwidth : Option Int) (incoming : List RecvR) :
    ∃ body, forward bandwidth incoming =
        body ++ [FEv.setFlag, FEv.shutdownSrcRead, FEv.shutdownDstWrite] ∧
      (∀ e ∈ body, isDataEv e = true) ∧
      FEv.closeSrcSock ∉ forward bandwidth incoming ∧
      FEv.closeDstSock ∉ forward bandwidth incoming := by
  refine ⟨forwardBody bandwidth incoming, rfl,
    forwardBody_data bandwidth incoming, ?_, ?_⟩
  · intro hmem
    rw [forward, List.mem_append] at hmem
    rcases hmem with hin | hin
    · have := forwardBody_data bandwidth incoming _ hin
      cases this
    · exact absurd hin (by decide)
  · intro hmem
    rw [forward, List.mem_append] at hmem
    rcases hmem with hin | hin
    · have := forwardBody_data bandwidth incoming _ hin
      cases this
    · exact absurd hin (by decide)

/-- A falsy bandwidth produces no sleep anywhere in the body. -/
lemma forwardSleeps_falsy (bandwidth : Option Int)
    (hbw : pyTruthyInt bandwidth = false) (incoming : List RecvR) :
    forwardSleeps bandwidth incoming = [] := by
  rw [forwardSleeps_body]
  induction incoming with
  | nil => rfl
  | cons r rest ih =>
    cases r with
    | recvErr => rfl
    | chunk data =>
      by_cases hd : data.isEmpty
      · simp [forwardBody, hd]
      · simp only [forwardBody, if_neg hd, List.filterMap_cons,
          List.filterMap_append]
        cases hb : bandwidth with
        | none =>
          subst hb
          simpa [throttle] using ih
        | some n =>
          subst hb
          have hn : n = 0 := by
            by_contra hcon
            simp [pyTruthyInt, hcon] at hbw
          subst hn
          simpa [throttle] using ih

/-- Every sleep of a run under bandwidth `n` has the per-chunk duration
`len / (n * 1024)`. -/
lemma forwardSleeps_shape (n : Int) (incoming : List RecvR) :
    ∀ d ∈ forwardSleeps (some n) incoming,
      ∃ len : Nat, d = (len : ℚ) / ((n : ℚ) * 1024) := by
  rw [forwardSleeps_body]
  induction incoming with
  | nil =>
    intro d hd
    cases hd
  | cons r rest ih =>
    intro d hd
    cases r with
    | recvErr => cases hd
    | chunk data =>
      by_cases hde : data.isEmpty
      · simp [forwardBody, hde] at hd
      · simp only [forwardBody, if_neg hde, List.filterMap_cons,
          List.filterMap_append, List.mem_append] at hd
        rcases hd with hin | hin
        · by_cases hn : n = 0
          · rw [throttle, if_neg (fun hcon => hcon hn)] at hin
            cases hin
          · rw [throttle, if_pos hn] at hin
            simp only [List.filterMap_cons, List.filterMap_nil,
              List.mem_singleton] at hin
            exact ⟨data.length, hin⟩
        · exact ih d hin

/-- C10: a bandwidth value that is falsy in Python (`None`, i.e. the flag
was absent, or `0`) disables throttling entirely: the trace holds no sleep
event, so the duration expression `len(data) / (bandwidth * 1024)` is
never computed; and every sleep a trace does hold arises from a truthy
bandwidth `n ≠ 0`, whose divisor `n * 1024` is nonzero. -/
theorem forward_bandwidth_guard (bandwidth : Option Int)
    (incoming : List RecvR) :
    (pyTruthyInt bandwidth = false →
      forwardSleeps bandwidth incoming = []) ∧
    (∀ d ∈ forwardSleeps bandwidth incoming,
      ∃ n : Int, bandwidth = some n ∧ n ≠ 0 ∧ (n : ℚ) * 1024 ≠ 0 ∧
        ∃ len : Nat, d = (len : ℚ) / ((n : ℚ) * 1024)) := by
  refine ⟨fun h => forwardSleeps_falsy bandwidth h incoming, fun d hd => ?_⟩
  cases hb : bandwidth with
  | none =>
    rw [hb, forwardSleeps_falsy none rfl incoming] at hd
    cases hd
  | some n =>
    by_cases hn : n = 0
    · subst hn
      rw [hb, forwardSleeps_falsy (some 0) rfl incoming] at hd
      cases hd
    · rw [hb] at hd
      obtain ⟨len, hlen⟩ := forwardSleeps_shape n incoming d hd
      refine ⟨n, rfl, hn, ?_, len, hlen⟩
      have hq : (n : ℚ) ≠ 0 := Int.cast_ne_zero.mpr hn
      intro hcon
      rcases mul_eq_zero.mp hcon with hz | hz
      · exact hq hz
      · norm_num at hz
end Luka
